import Mathlib

/-!
# COVID health dashboard: metric-derivation and aggregation pipeline

A shallow embedding of the data pipeline of `src/app.py`:
load (sort by date) → derive columns → filter → aggregate views.

Pandas float semantics are modelled by `PVal`: a value is NaN (null),
+∞, −∞, or a finite rational.  Division by zero follows IEEE/pandas:
`0/0 = NaN`, `x/0 = ±∞` for `x ≠ 0`.  Aggregations skip NaN (pandas
`skipna=True`): a sum over an all-NaN group is `0`, a mean over an
all-NaN group is NaN.  `pd.cut` uses right-closed bins `(lo, hi]`.
-/

/-- A pandas float cell: NaN (treated as null), +infinity, -infinity,
or a finite rational. -/
inductive PVal where
  | nan : PVal
  | pinf : PVal
  | ninf : PVal
  | fin : ℚ → PVal
deriving DecidableEq, Repr

namespace PVal

/-- `isna`: only NaN is null; infinities are not null. -/
def isNan : PVal → Bool
  | nan => true
  | _ => false

/-- IEEE addition, used for skipna sums once NaNs are removed. -/
def padd : PVal → PVal → PVal
  | nan, _ => nan
  | _, nan => nan
  | pinf, ninf => nan
  | ninf, pinf => nan
  | pinf, _ => pinf
  | _, pinf => pinf
  | ninf, _ => ninf
  | _, ninf => ninf
  | fin a, fin b => fin (a + b)

/-- Divide a pandas value by a positive natural count (for means). -/
def divNat (v : PVal) (n : ℕ) : PVal :=
  match v with
  | nan => nan
  | pinf => pinf
  | ninf => ninf
  | fin q => fin (q / n)

end PVal

/-- `(a / b) * k` with a positive scale factor `k`, IEEE semantics on a
zero denominator: models pandas `(df[x] / df[y]) * k`. -/
def scaledDiv (a b k : ℚ) : PVal :=
  if b = 0 then
    (if a = 0 then PVal.nan else if 0 < a then PVal.pinf else PVal.ninf)
  else PVal.fin (a / b * k)

/-- pandas `pct_change` step times 100: `(c/p - 1) * 100`, IEEE on `p = 0`. -/
def pctChange (p c : ℚ) : PVal :=
  if p = 0 then
    (if c = 0 then PVal.nan else if 0 < c then PVal.pinf else PVal.ninf)
  else PVal.fin ((c - p) / p * 100)

/-- Sum skipping NaN (pandas `sum` with `skipna=True`): an all-NaN or
empty list sums to `0`. -/
def nanSum (xs : List PVal) : PVal :=
  (xs.filter (fun v => !v.isNan)).foldl PVal.padd (PVal.fin 0)

/-- Number of non-NaN entries. -/
def nanCount (xs : List PVal) : ℕ :=
  (xs.filter (fun v => !v.isNan)).length

/-- Mean skipping NaN (pandas `mean`): NaN when no non-NaN entry exists. -/
def nanMean (xs : List PVal) : PVal :=
  if nanCount xs = 0 then PVal.nan else (nanSum xs).divNat (nanCount xs)

/-- One raw row of `covid_data.csv`.  `date` is a day ordinal (calendar
dates are totally ordered); counts are integers, accepted as-is. -/
structure RawRecord where
  country : String
  continent : String
  date : ℕ
  population : ℤ
  confirmed : ℤ
  deaths : ℤ
  recovered : ℤ
  active : ℤ
deriving DecidableEq, Repr

/-- A row after `load_data` attached the derived metric columns. -/
structure Record extends RawRecord where
  cfrVal : PVal
  recoveryRate : PVal
  casesPerMillion : PVal
  deathsPerMillion : PVal
  activeRatio : PVal
  dailyGrowth : PVal
  sevenDayAvg : PVal
deriving DecidableEq, Repr

/-- Date order on raw rows, the sort key of `df.sort_values("Date")`. -/
def dateLe (a b : RawRecord) : Prop := a.date ≤ b.date

instance : DecidableRel dateLe := fun a b => Nat.decLe a.date b.date

instance : IsTotal RawRecord dateLe := ⟨fun a b => Nat.le_total a.date b.date⟩

instance : IsTrans RawRecord dateLe := ⟨fun _ _ _ h h' => Nat.le_trans h h'⟩

/-- Derive all metric columns for row `r`, given the rows `hist` that
precede it in the date-sorted table.  Row-local ratios depend on `r`
alone; `DailyGrowth` and `7DayAvg` are computed within the country
partition (`groupby("Country")` preserves the date-sorted row order). -/
def mkRecord (hist : List RawRecord) (r : RawRecord) : Record :=
  let countryHist := hist.filter (fun p => p.country = r.country)
  let confs : List ℚ :=
    (countryHist.map (fun p => (p.confirmed : ℚ))) ++ [(r.confirmed : ℚ)]
  { toRawRecord := r
    cfrVal := scaledDiv r.deaths r.confirmed 100
    recoveryRate := scaledDiv r.recovered r.confirmed 100
    casesPerMillion := scaledDiv r.confirmed r.population 1000000
    deathsPerMillion := scaledDiv r.deaths r.population 1000000
    activeRatio := scaledDiv r.active r.confirmed 100
    dailyGrowth :=
      match countryHist.getLast? with
      | none => PVal.nan
      | some p => pctChange p.confirmed r.confirmed
    sevenDayAvg :=
      if confs.length < 7 then PVal.nan
      else PVal.fin ((confs.reverse.take 7).sum / 7) }

/-- Forward pass computing every row's derived columns, carrying the
rows already seen (the date-sorted prefix). -/
def deriveAux (hist : List RawRecord) : List RawRecord → List Record
  | [] => []
  | r :: rest => mkRecord hist r :: deriveAux (hist ++ [r]) rest

/-- `load_data`: sort by `Date` ascending, then attach derived columns. -/
def load_data (rs : List RawRecord) : List Record :=
  deriveAux [] (List.insertionSort dateLe rs)

/-- The sidebar selections consumed by the filter step. -/
structure FilterCriteria where
  continents : List String
  countries : List String
  startDate : ℕ
  endDate : ℕ
deriving DecidableEq, Repr

/-- Row predicate of the filter mask:
`Continent.isin(...) & Country.isin(...) & (Date >= start) & (Date <= end)`. -/
def matchesCriteria (c : FilterCriteria) (r : Record) : Bool :=
  decide (r.continent ∈ c.continents) && decide (r.country ∈ c.countries) &&
    decide (c.startDate ≤ r.date) && decide (r.date ≤ c.endDate)

/-- `filtered_df`: boolean-mask row selection over the derived table. -/
def filtered_df (d : List Record) (c : FilterCriteria) : List Record :=
  d.filter (matchesCriteria c)

/-- KPI `total_cases = filtered_df["Confirmed"].sum()`. -/
def total_cases (f : List Record) : ℤ := (f.map (fun r => r.confirmed)).sum

/-- KPI `total_deaths`. -/
def total_deaths (f : List Record) : ℤ := (f.map (fun r => r.deaths)).sum

/-- KPI `total_recovered`. -/
def total_recovered (f : List Record) : ℤ := (f.map (fun r => r.recovered)).sum

/-- KPI `active_cases`. -/
def active_cases (f : List Record) : ℤ := (f.map (fun r => r.active)).sum

/-- KPI `cfr = total_deaths / total_cases * 100 if total_cases else 0`. -/
def cfr (f : List Record) : ℚ :=
  if total_cases f = 0 then 0
  else (total_deaths f : ℚ) / (total_cases f : ℚ) * 100

/-- KPI `recovery_rate`, analogous to `cfr`. -/
def recovery_rate (f : List Record) : ℚ :=
  if total_cases f = 0 then 0
  else (total_recovered f : ℚ) / (total_cases f : ℚ) * 100

/-- Distinct dates of the filtered set, ascending: the group keys of
`filtered_df.groupby("Date")` (pandas sorts group keys). -/
def datesSorted (f : List Record) : List ℕ :=
  List.insertionSort (fun a b => a ≤ b) (f.map (fun r => r.date)).dedup

/-- Per-date sum of `Confirmed` (integers, no NaN possible). -/
def dateConfirmedSum (f : List Record) (dd : ℕ) : ℤ :=
  ((f.filter (fun r => r.date = dd)).map (fun r => r.confirmed)).sum

/-- Per-date sum of `7DayAvg` with pandas skipna semantics. -/
def dateAvgSum (f : List Record) (dd : ℕ) : PVal :=
  nanSum ((f.filter (fun r => r.date = dd)).map (fun r => r.sevenDayAvg))

/-- Trend view: `groupby("Date")[["Confirmed", "7DayAvg"]].sum()`. -/
def trend (f : List Record) : List (ℕ × ℤ × PVal) :=
  (datesSorted f).map (fun dd => (dd, dateConfirmedSum f dd, dateAvgSum f dd))

/-- Distinct countries of the filtered set, ascending: the group keys of
`filtered_df.groupby("Country")`. -/
def countriesSorted (f : List Record) : List String :=
  List.insertionSort (fun a b => a ≤ b) (f.map (fun r => r.country)).dedup

/-- Per-country mean of `CasesPerMillion` with skipna semantics. -/
def countryMeanCases (f : List Record) (k : String) : PVal :=
  nanMean ((f.filter (fun r => r.country = k)).map (fun r => r.casesPerMillion))

/-- Per-country mean of `DeathsPerMillion` with skipna semantics. -/
def countryMeanDeaths (f : List Record) (k : String) : PVal :=
  nanMean ((f.filter (fun r => r.country = k)).map (fun r => r.deathsPerMillion))

/-- `pd.cut(bins=[0, 1000, 5000, 20000, inf], labels=[...])` with the
default right-closed bins `(0,1000], (1000,5000], (5000,20000], (20000,∞]`;
values outside every bin (including 0 itself and NaN) get no label. -/
def riskCut (v : PVal) : Option String :=
  match v with
  | PVal.nan => none
  | PVal.ninf => none
  | PVal.pinf => some "Critical"
  | PVal.fin q =>
    if 0 < q ∧ q ≤ 1000 then some "Low"
    else if 1000 < q ∧ q ≤ 5000 then some "Moderate"
    else if 5000 < q ∧ q ≤ 20000 then some "High"
    else if 20000 < q then some "Critical"
    else none

/-- Risk view: per-country mean `CasesPerMillion` and its `RiskLevel`. -/
def risk_df (f : List Record) : List (String × PVal × Option String) :=
  (countriesSorted f).map
    (fun k => (k, countryMeanCases f k, riskCut (countryMeanCases f k)))

/-- Population-impact view: per-country means of `CasesPerMillion` and
`DeathsPerMillion`. -/
def popImpact (f : List Record) : List (String × PVal × PVal) :=
  (countriesSorted f).map
    (fun k => (k, countryMeanCases f k, countryMeanDeaths f k))

/-- One step of the scan behind `idxmax`: keep the current best row,
replacing it only on a strictly larger `Confirmed` (so the first
occurrence of the maximum wins). -/
def peakStep (best x : Record) : Record :=
  if best.confirmed < x.confirmed then x else best

/-- `x.loc[x["Confirmed"].idxmax()]`: the first row attaining the
maximum `Confirmed` of the group (pandas `idxmax` returns the first
occurrence of the maximum). -/
def firstMax : List Record → Option Record
  | [] => none
  | r :: rest => some (rest.foldl peakStep r)

/-- Peak view: per country, the first row with maximal `Confirmed`,
projected to `(Country, Date, Confirmed)`. -/
def peak (f : List Record) : List (String × ℕ × ℤ) :=
  (countriesSorted f).filterMap (fun k =>
    (firstMax (f.filter (fun r => r.country = k))).map
      (fun r => (r.country, r.date, r.confirmed)))

/-- CSV export of the filtered set followed by reload and re-derivation:
the raw columns round-trip exactly through the CSV text, and `load_data`
recomputes every derived column from them. -/
def exportReload (f : List Record) : List Record :=
  load_data (f.map (fun r => r.toRawRecord))

/-- A record whose row-local derived columns agree with the formulas on
its own raw fields: every record produced by the deriver satisfies this. -/
def rowLocalCoherent (r : Record) : Prop :=
  r.cfrVal = scaledDiv r.deaths r.confirmed 100 ∧
  r.recoveryRate = scaledDiv r.recovered r.confirmed 100 ∧
  r.casesPerMillion = scaledDiv r.confirmed r.population 1000000 ∧
  r.deathsPerMillion = scaledDiv r.deaths r.population 1000000 ∧
  r.activeRatio = scaledDiv r.active r.confirmed 100

/-- Agreement of two records on the raw fields and all row-local derived
columns (the sequential columns `DailyGrowth`, `7DayAvg` may differ). -/
def rowLocalAgree (a b : Record) : Prop :=
  a.toRawRecord = b.toRawRecord ∧ a.cfrVal = b.cfrVal ∧
    a.recoveryRate = b.recoveryRate ∧ a.casesPerMillion = b.casesPerMillion ∧
    a.deathsPerMillion = b.deathsPerMillion ∧ a.activeRatio = b.activeRatio

/-! ## Basic lemmas about the deriver -/

theorem deriveAux_length (hist : List RawRecord) (l : List RawRecord) :
    (deriveAux hist l).length = l.length := by
  induction l generalizing hist with
  | nil => rfl
  | cons r rest ih => simp [deriveAux, ih]

theorem deriveAux_map_raw (hist : List RawRecord) (l : List RawRecord) :
    (deriveAux hist l).map (fun r => r.toRawRecord) = l := by
  induction l generalizing hist with
  | nil => rfl
  | cons r rest ih => simp [deriveAux, mkRecord, ih]

theorem deriveAux_getElem? (l : List RawRecord) (hist : List RawRecord) (i : ℕ) :
    (deriveAux hist l)[i]? = (l[i]?).map (fun r => mkRecord (hist ++ l.take i) r) := by
  induction l generalizing hist i with
  | nil => simp [deriveAux]
  | cons r rest ih =>
    cases i with
    | zero => simp [deriveAux]
    | succ j => simp [deriveAux, ih, List.append_assoc]

theorem coherent_of_mem_deriveAux (l : List RawRecord) (hist : List RawRecord)
    (r' : Record) (h : r' ∈ deriveAux hist l) : rowLocalCoherent r' := by
  induction l generalizing hist with
  | nil => simp [deriveAux] at h
  | cons r rest ih =>
    rcases (List.mem_cons).1 h with h0 | h1
    · subst h0
      exact ⟨rfl, rfl, rfl, rfl, rfl⟩
    · exact ih _ h1

theorem coherent_of_mem_load_data (rs : List RawRecord) (r' : Record)
    (h : r' ∈ load_data rs) : rowLocalCoherent r' :=
  coherent_of_mem_deriveAux _ _ _ h

theorem load_data_sorted (rs : List RawRecord) :
    List.Sorted (fun a b : Record => a.date ≤ b.date) (load_data rs) := by
  have hs : List.Sorted dateLe (List.insertionSort dateLe rs) :=
    List.sorted_insertionSort dateLe rs
  have hmap := deriveAux_map_raw [] (List.insertionSort dateLe rs)
  rw [← hmap] at hs
  rw [List.Sorted, List.pairwise_map] at hs
  exact hs

theorem filtered_df_sorted (rs : List RawRecord) (c : FilterCriteria) :
    List.Sorted (fun a b : Record => a.date ≤ b.date)
      (filtered_df (load_data rs) c) :=
  (load_data_sorted rs).filter _

/-! ## Basic lemmas about skipna aggregation -/

theorem isNan_iff (v : PVal) : v.isNan = true ↔ v = PVal.nan := by
  cases v <;> simp [PVal.isNan]

theorem nanSum_middle (xs ys : List PVal) (v : PVal) (h : v.isNan = true) :
    nanSum (xs ++ v :: ys) = nanSum (xs ++ ys) := by
  rw [(isNan_iff v).1 h]
  simp [nanSum, List.filter_append, List.filter_cons, PVal.isNan]

theorem nanCount_middle (xs ys : List PVal) (v : PVal) (h : v.isNan = true) :
    nanCount (xs ++ v :: ys) = nanCount (xs ++ ys) := by
  rw [(isNan_iff v).1 h]
  simp [nanCount, List.filter_append, List.filter_cons, PVal.isNan]

theorem nanMean_middle (xs ys : List PVal) (v : PVal) (h : v.isNan = true) :
    nanMean (xs ++ v :: ys) = nanMean (xs ++ ys) := by
  simp [nanMean, nanSum_middle xs ys v h, nanCount_middle xs ys v h]

theorem nanSum_all_nan (xs : List PVal) (h : ∀ v ∈ xs, v.isNan = true) :
    nanSum xs = PVal.fin 0 := by
  have : xs.filter (fun v => !v.isNan) = [] := by
    rw [List.filter_eq_nil_iff]
    intro v hv
    simp [h v hv]
  simp [nanSum, this]

theorem scaledDiv_zero_denom_isNan (a k : ℚ) :
    (scaledDiv a 0 k).isNan = true ↔ a = 0 := by
  unfold scaledDiv
  split_ifs with h0 ha hpos <;> simp_all [PVal.isNan]

/-! ## Claim C1: row-local ratios on a zero denominator -/

/-- Claim C1 counterexample: a record with `Confirmed = 0` and
`Deaths = 1` gets `CFR = +∞`, which is not null, falsifying the claim
that `Confirmed = 0` makes `CFR` null for that record. -/
theorem c1_null_guards_cex :
    (load_data [(⟨"A", "Asia", 0, 1000, 0, 1, 0, 0⟩ : RawRecord)]).map
      (fun r => (r.cfrVal, r.cfrVal.isNan)) = [(PVal.pinf, false)] := by
  decide

/-- Claim C1 (amended): for every record of the derived dataset, a zero
denominator makes the ratio null exactly when the numerator is also
zero; with a nonzero numerator the ratio is an infinity, not null.
The division is total, so it never raises an error. -/
theorem c1_null_guards (rs : List RawRecord) (r : Record)
    (h : r ∈ load_data rs) :
    (r.confirmed = 0 →
      ((r.cfrVal.isNan = true ↔ r.deaths = 0) ∧
       (r.recoveryRate.isNan = true ↔ r.recovered = 0) ∧
       (r.activeRatio.isNan = true ↔ r.active = 0))) ∧
    (r.population = 0 →
      ((r.casesPerMillion.isNan = true ↔ r.confirmed = 0) ∧
       (r.deathsPerMillion.isNan = true ↔ r.deaths = 0))) := by
  obtain ⟨h1, h2, h3, h4, h5⟩ := coherent_of_mem_load_data rs r h
  constructor
  · intro hc
    have hc' : (r.confirmed : ℚ) = 0 := by exact_mod_cast hc
    refine ⟨?_, ?_, ?_⟩
    · rw [h1, hc', scaledDiv_zero_denom_isNan]
      exact Int.cast_eq_zero
    · rw [h2, hc', scaledDiv_zero_denom_isNan]
      exact Int.cast_eq_zero
    · rw [h5, hc', scaledDiv_zero_denom_isNan]
      exact Int.cast_eq_zero
  · intro hp
    have hp' : (r.population : ℚ) = 0 := by exact_mod_cast hp
    refine ⟨?_, ?_⟩
    · rw [h3, hp', scaledDiv_zero_denom_isNan]
      exact Int.cast_eq_zero
    · rw [h4, hp', scaledDiv_zero_denom_isNan]
      exact Int.cast_eq_zero

/-- Claim C1 witness: the amended statement applied to a concrete
record with `Confirmed = 0`, `Population = 0`, `Deaths = 1`. -/
theorem c1_null_guards_witness :
    ((mkRecord [] (⟨"A", "Asia", 0, 0, 0, 1, 2, 3⟩ : RawRecord)).cfrVal.isNan = true ↔
      (mkRecord [] (⟨"A", "Asia", 0, 0, 0, 1, 2, 3⟩ : RawRecord)).deaths = 0) ∧
    ((mkRecord [] (⟨"A", "Asia", 0, 0, 0, 1, 2, 3⟩ : RawRecord)).casesPerMillion.isNan = true ↔
      (mkRecord [] (⟨"A", "Asia", 0, 0, 0, 1, 2, 3⟩ : RawRecord)).confirmed = 0) := by
  have h := c1_null_guards [⟨"A", "Asia", 0, 0, 0, 1, 2, 3⟩]
    (mkRecord [] ⟨"A", "Asia", 0, 0, 0, 1, 2, 3⟩) (by decide)
  exact ⟨(h.1 rfl).1, (h.2 rfl).1⟩

/-! ## Claim C2: risk banding boundaries -/

/-- Claim C2 counterexample: `pd.cut` uses right-closed bins, so a
country whose mean `CasesPerMillion` is exactly 1000 is labelled
"Low", while the claim requires "Moderate". -/
theorem c2_risk_banding_cex :
    risk_df (load_data [(⟨"B", "Asia", 0, 1000000, 1000, 0, 0, 0⟩ : RawRecord)]) =
      [("B", PVal.fin 1000, some "Low")] ∧
    (some "Low" ≠ some "Moderate") := by
  have hmean :
      countryMeanCases
        (load_data [(⟨"B", "Asia", 0, 1000000, 1000, 0, 0, 0⟩ : RawRecord)]) "B" =
        PVal.fin 1000 := by
    simp [countryMeanCases, load_data, deriveAux, mkRecord, List.insertionSort,
      List.orderedInsert, nanMean, nanSum, nanCount, PVal.isNan, PVal.divNat,
      PVal.padd, scaledDiv]
  refine ⟨?_, by decide⟩
  have hcountries :
      countriesSorted
        (load_data [(⟨"B", "Asia", 0, 1000000, 1000, 0, 0, 0⟩ : RawRecord)]) = ["B"] := by
    simp [countriesSorted, load_data, deriveAux, mkRecord, List.insertionSort,
      List.orderedInsert]
  rw [risk_df, hcountries]
  rw [List.map_singleton, hmean]
  norm_num [riskCut]

/-- Claim C2 (amended): the `RiskLevel` bands are left-exclusive and
right-inclusive — Low on (0,1000], Moderate on (1000,5000], High on
(5000,20000], Critical on (20000,∞); a mean of 999 gets "Low", 1000
gets "Low", 19999 gets "High", 20000 gets "High"; a mean at or below 0
falls outside every band and gets no label; and each country of the
filtered set appears in the Risk view with its banded mean. -/
theorem c2_risk_banding (q : ℚ) :
    (riskCut (PVal.fin q) = some "Low" ↔ 0 < q ∧ q ≤ 1000) ∧
    (riskCut (PVal.fin q) = some "Moderate" ↔ 1000 < q ∧ q ≤ 5000) ∧
    (riskCut (PVal.fin q) = some "High" ↔ 5000 < q ∧ q ≤ 20000) ∧
    (riskCut (PVal.fin q) = some "Critical" ↔ 20000 < q) ∧
    (riskCut (PVal.fin q) = none ↔ q ≤ 0) ∧
    (∀ f k, k ∈ countriesSorted f →
      (k, countryMeanCases f k, riskCut (countryMeanCases f k)) ∈ risk_df f) := by
  refine ⟨?_, ?_, ?_, ?_, ?_, ?_⟩
  · simp only [riskCut]
    split_ifs with h1 h2 h3 h4
    · exact iff_of_true rfl h1
    · exact iff_of_false (by decide) h1
    · exact iff_of_false (by decide) h1
    · exact iff_of_false (by decide) h1
    · exact iff_of_false (by decide) h1
  · simp only [riskCut]
    split_ifs with h1 h2 h3 h4
    · exact iff_of_false (by decide) (by rintro ⟨a, -⟩; linarith [h1.2])
    · exact iff_of_true rfl h2
    · exact iff_of_false (by decide) h2
    · exact iff_of_false (by decide) h2
    · exact iff_of_false (by decide) h2
  · simp only [riskCut]
    split_ifs with h1 h2 h3 h4
    · exact iff_of_false (by decide) (by rintro ⟨a, -⟩; linarith [h1.2])
    · exact iff_of_false (by decide) (by rintro ⟨a, -⟩; linarith [h2.2])
    · exact iff_of_true rfl h3
    · exact iff_of_false (by decide) h3
    · exact iff_of_false (by decide) h3
  · simp only [riskCut]
    split_ifs with h1 h2 h3 h4
    · exact iff_of_false (by decide) (by intro a; linarith [h1.2])
    · exact iff_of_false (by decide) (by intro a; linarith [h2.2])
    · exact iff_of_false (by decide) (by intro a; linarith [h3.2])
    · exact iff_of_true rfl h4
    · exact iff_of_false (by decide) h4
  · simp only [riskCut]
    split_ifs with h1 h2 h3 h4
    · exact iff_of_false (by decide) (by intro a; linarith [h1.1])
    · exact iff_of_false (by decide) (by intro a; linarith [h2.1])
    · exact iff_of_false (by decide) (by intro a; linarith [h3.1])
    · exact iff_of_false (by decide) (by intro a; linarith [h4])
    · refine iff_of_true rfl ?_
      by_contra hq
      push_neg at hq
      have a1 : ¬ q ≤ 1000 := fun hb => h1 ⟨hq, hb⟩
      have a2 : ¬ q ≤ 5000 := fun hb => h2 ⟨not_le.mp a1, hb⟩
      have a3 : ¬ q ≤ 20000 := fun hb => h3 ⟨not_le.mp a2, hb⟩
      exact h4 (not_le.mp a3)
  · intro f k hk
    unfold risk_df
    exact List.mem_map.mpr ⟨k, hk, rfl⟩

/-- Claim C2 witness: the pipeline clause of the amended statement on a
one-country dataset. -/
theorem c2_risk_banding_witness :
    ("A",
      countryMeanCases (load_data [(⟨"A", "Asia", 0, 1000000, 1000, 0, 0, 0⟩ : RawRecord)]) "A",
      riskCut (countryMeanCases
        (load_data [(⟨"A", "Asia", 0, 1000000, 1000, 0, 0, 0⟩ : RawRecord)]) "A")) ∈
      risk_df (load_data [(⟨"A", "Asia", 0, 1000000, 1000, 0, 0, 0⟩ : RawRecord)]) :=
  (c2_risk_banding 0).2.2.2.2.2
    (load_data [(⟨"A", "Asia", 0, 1000000, 1000, 0, 0, 0⟩ : RawRecord)]) "A" (by decide)

/-! ## Claim C3: DailyGrowth and 7DayAvg within country partitions -/

/-- The date-ordered rows of country `k` that precede position `i` of
the sorted dataset: the partition prefix seen by the deriver. -/
def countryHistAt (rs : List RawRecord) (i : ℕ) (k : String) : List RawRecord :=
  ((List.insertionSort dateLe rs).take i).filter (fun p => p.country = k)

/-- Claim C3 counterexample: with `Confirmed` going 0 → 5 inside one
country, the second record's `DailyGrowth` is `+∞`, not null,
falsifying the claim that `Confirmed[i−1] = 0` makes `DailyGrowth[i]`
null. -/
theorem c3_sequential_metrics_cex :
    (load_data [(⟨"A", "Asia", 0, 1000, 0, 0, 0, 0⟩ : RawRecord),
                ⟨"A", "Asia", 1, 1000, 5, 0, 0, 0⟩]).map
      (fun r => (r.dailyGrowth, r.dailyGrowth.isNan)) =
      [(PVal.nan, true), (PVal.pinf, false)] := by
  decide

/-- Claim C3 (amended): within every country partition of the
date-sorted dataset, the first record's `DailyGrowth` and `7DayAvg` are
null; `DailyGrowth[i] = (Confirmed[i] − Confirmed[i−1]) / Confirmed[i−1] × 100`
when `Confirmed[i−1] ≠ 0`, while `Confirmed[i−1] = 0` gives null only
when `Confirmed[i] = 0` too, and otherwise `±∞` (not null); `7DayAvg`
is null before the 7th record of the partition and from the 7th record
onward equals the mean of the trailing 7 `Confirmed` values (non-null). -/
theorem c3_sequential_metrics (rs : List RawRecord) (i : ℕ) (r' : Record)
    (h : (load_data rs)[i]? = some r') :
    ∃ raw, (List.insertionSort dateLe rs)[i]? = some raw ∧ r'.toRawRecord = raw ∧
      (countryHistAt rs i raw.country = [] →
        r'.dailyGrowth = PVal.nan ∧ r'.sevenDayAvg = PVal.nan) ∧
      (∀ p, (countryHistAt rs i raw.country).getLast? = some p →
        (p.confirmed ≠ 0 → r'.dailyGrowth =
          PVal.fin (((raw.confirmed : ℚ) - (p.confirmed : ℚ)) / (p.confirmed : ℚ) * 100)) ∧
        (p.confirmed = 0 → raw.confirmed = 0 → r'.dailyGrowth = PVal.nan) ∧
        (p.confirmed = 0 → 0 < raw.confirmed → r'.dailyGrowth = PVal.pinf) ∧
        (p.confirmed = 0 → raw.confirmed < 0 → r'.dailyGrowth = PVal.ninf)) ∧
      ((countryHistAt rs i raw.country).length + 1 < 7 → r'.sevenDayAvg = PVal.nan) ∧
      (6 ≤ (countryHistAt rs i raw.country).length →
        r'.sevenDayAvg ≠ PVal.nan ∧
        r'.sevenDayAvg = PVal.fin
          (((((countryHistAt rs i raw.country).map (fun p => (p.confirmed : ℚ))
              ++ [(raw.confirmed : ℚ)]).reverse.take 7).sum) / 7)) := by
  rw [load_data, deriveAux_getElem?] at h
  obtain ⟨raw, hraw, hmk⟩ := Option.map_eq_some'.mp h
  subst hmk
  refine ⟨raw, hraw, rfl, ?_, ?_, ?_, ?_⟩
  · intro hnil
    constructor
    · show (match (countryHistAt rs i raw.country).getLast? with
        | none => PVal.nan
        | some p => pctChange p.confirmed raw.confirmed) = PVal.nan
      rw [hnil]
      rfl
    · show (if (((countryHistAt rs i raw.country).map
          (fun p => (p.confirmed : ℚ))) ++ [(raw.confirmed : ℚ)]).length < 7
          then PVal.nan else _) = PVal.nan
      rw [hnil]
      rfl
  · intro p hp
    have hdg : (mkRecord ([] ++ (List.insertionSort dateLe rs).take i) raw).dailyGrowth =
        pctChange p.confirmed raw.confirmed := by
      show (match (countryHistAt rs i raw.country).getLast? with
        | none => PVal.nan
        | some q => pctChange q.confirmed raw.confirmed) = _
      rw [hp]
    rw [hdg]
    refine ⟨?_, ?_, ?_, ?_⟩
    · intro hne
      rw [pctChange, if_neg (by exact_mod_cast hne)]
    · intro hz hz'
      rw [pctChange, if_pos (by exact_mod_cast hz), if_pos (by exact_mod_cast hz')]
    · intro hz hpos
      rw [pctChange, if_pos (by exact_mod_cast hz),
        if_neg (by exact_mod_cast hpos.ne'), if_pos (by exact_mod_cast hpos)]
    · intro hz hneg
      rw [pctChange, if_pos (by exact_mod_cast hz),
        if_neg (by exact_mod_cast hneg.ne),
        if_neg (by exact_mod_cast lt_asymm hneg)]
  · intro hlen
    show (if (((countryHistAt rs i raw.country).map
        (fun p => (p.confirmed : ℚ))) ++ [(raw.confirmed : ℚ)]).length < 7
        then PVal.nan else _) = PVal.nan
    rw [if_pos (by simpa using hlen)]
  · intro hlen
    constructor
    · show (if (((countryHistAt rs i raw.country).map
          (fun p => (p.confirmed : ℚ))) ++ [(raw.confirmed : ℚ)]).length < 7
          then PVal.nan else _) ≠ PVal.nan
      rw [if_neg (by simp; omega)]
      simp
    · show (if (((countryHistAt rs i raw.country).map
          (fun p => (p.confirmed : ℚ))) ++ [(raw.confirmed : ℚ)]).length < 7
          then PVal.nan else _) = _
      rw [if_neg (by simp; omega)]
      rfl

/-- Claim C3 witness: day 2 of a country with Confirmed 1000 → 1100 has
`DailyGrowth = 10%`, via the amended theorem at position 1. -/
theorem c3_sequential_metrics_witness :
    (mkRecord [(⟨"A", "Asia", 0, 1000000, 1000, 0, 0, 0⟩ : RawRecord)]
      ⟨"A", "Asia", 1, 1000000, 1100, 0, 0, 0⟩).dailyGrowth = PVal.fin 10 := by
  have h := c3_sequential_metrics
    [⟨"A", "Asia", 0, 1000000, 1000, 0, 0, 0⟩, ⟨"A", "Asia", 1, 1000000, 1100, 0, 0, 0⟩] 1
    (mkRecord [⟨"A", "Asia", 0, 1000000, 1000, 0, 0, 0⟩]
      ⟨"A", "Asia", 1, 1000000, 1100, 0, 0, 0⟩) rfl
  obtain ⟨raw, hraw, htr, hnil, hstep, hlt, hge⟩ := h
  have hraw' : raw = ⟨"A", "Asia", 1, 1000000, 1100, 0, 0, 0⟩ := by
    have h2 : (List.insertionSort dateLe
        [(⟨"A", "Asia", 0, 1000000, 1000, 0, 0, 0⟩ : RawRecord),
         ⟨"A", "Asia", 1, 1000000, 1100, 0, 0, 0⟩])[1]? =
        some (⟨"A", "Asia", 1, 1000000, 1100, 0, 0, 0⟩ : RawRecord) := rfl
    rw [h2] at hraw
    exact (Option.some.inj hraw).symm
  subst hraw'
  have hlast : (countryHistAt
      [(⟨"A", "Asia", 0, 1000000, 1000, 0, 0, 0⟩ : RawRecord),
       ⟨"A", "Asia", 1, 1000000, 1100, 0, 0, 0⟩] 1
      (⟨"A", "Asia", 1, 1000000, 1100, 0, 0, 0⟩ : RawRecord).country).getLast? =
      some ⟨"A", "Asia", 0, 1000000, 1000, 0, 0, 0⟩ := rfl
  have hg := (hstep _ hlast).1 (by decide)
  rw [hg]
  simp only [PVal.fin.injEq]
  norm_num

/-! ## Claim C4: aggregations exclude null entries -/

/-- Claim C4: inserting a record whose relevant field is null into the
dataset changes no per-date sum and no per-country mean (null entries
are excluded, not counted as zero), and a null among finite values is
dropped from the mean rather than averaged in as zero. -/
theorem c4_null_exclusion :
    (∀ (f₁ f₂ : List Record) (r : Record) (dd : ℕ), r.sevenDayAvg.isNan = true →
      dateAvgSum (f₁ ++ r :: f₂) dd = dateAvgSum (f₁ ++ f₂) dd) ∧
    (∀ (f₁ f₂ : List Record) (r : Record) (k : String), r.casesPerMillion.isNan = true →
      countryMeanCases (f₁ ++ r :: f₂) k = countryMeanCases (f₁ ++ f₂) k) ∧
    (∀ (f₁ f₂ : List Record) (r : Record) (k : String), r.deathsPerMillion.isNan = true →
      countryMeanDeaths (f₁ ++ r :: f₂) k = countryMeanDeaths (f₁ ++ f₂) k) ∧
    (∀ q : ℚ, nanMean [PVal.nan, PVal.fin q] = PVal.fin q) := by
  refine ⟨?_, ?_, ?_, ?_⟩
  · intro f₁ f₂ r dd h
    by_cases hd : r.date = dd
    · rw [dateAvgSum, dateAvgSum, List.filter_append, List.filter_append,
        List.filter_cons, if_pos (by simp [hd])]
      simp only [List.map_append, List.map_cons]
      exact nanSum_middle _ _ _ h
    · simp [dateAvgSum, List.filter_append, List.filter_cons, hd]
  · intro f₁ f₂ r k h
    by_cases hk : r.country = k
    · rw [countryMeanCases, countryMeanCases, List.filter_append, List.filter_append,
        List.filter_cons, if_pos (by simp [hk])]
      simp only [List.map_append, List.map_cons]
      exact nanMean_middle _ _ _ h
    · simp [countryMeanCases, List.filter_append, List.filter_cons, hk]
  · intro f₁ f₂ r k h
    by_cases hk : r.country = k
    · rw [countryMeanDeaths, countryMeanDeaths, List.filter_append, List.filter_append,
        List.filter_cons, if_pos (by simp [hk])]
      simp only [List.map_append, List.map_cons]
      exact nanMean_middle _ _ _ h
    · simp [countryMeanDeaths, List.filter_append, List.filter_cons, hk]
  · intro q
    simp [nanMean, nanCount, nanSum, PVal.isNan, PVal.padd, PVal.divNat]

/-- Claim C4 witness: a record whose `7DayAvg` is null contributes
nothing to the per-date sum. -/
theorem c4_null_exclusion_witness :
    dateAvgSum [mkRecord [] (⟨"A", "Asia", 0, 1000, 5, 0, 0, 0⟩ : RawRecord)] 0 =
      dateAvgSum [] 0 :=
  c4_null_exclusion.1 [] [] (mkRecord [] ⟨"A", "Asia", 0, 1000, 5, 0, 0, 0⟩) 0 rfl

/-! ## Claim C5: filter-engine semantics -/

/-- Claim C5: the filter returns exactly the subsequence of records
matching continent, country and the inclusive date interval; an empty
continent or country selection, or an inverted date interval, yields an
empty result without failing. -/
theorem c5_filter_engine (d : List Record) (c : FilterCriteria) :
    List.Sublist (filtered_df d c) d ∧
    (∀ r, r ∈ filtered_df d c ↔ r ∈ d ∧ r.continent ∈ c.continents ∧
      r.country ∈ c.countries ∧ c.startDate ≤ r.date ∧ r.date ≤ c.endDate) ∧
    (c.continents = [] → filtered_df d c = []) ∧
    (c.countries = [] → filtered_df d c = []) ∧
    (c.endDate < c.startDate → filtered_df d c = []) := by
  refine ⟨List.filter_sublist d, ?_, ?_, ?_, ?_⟩
  · intro r
    simp [filtered_df, List.mem_filter, matchesCriteria, and_assoc]
  · intro h
    simp [filtered_df, List.filter_eq_nil_iff, matchesCriteria, h]
  · intro h
    simp [filtered_df, List.filter_eq_nil_iff, matchesCriteria, h]
  · intro h
    rw [filtered_df, List.filter_eq_nil_iff]
    intro r _
    simp only [matchesCriteria, Bool.and_eq_true, decide_eq_true_eq, not_and]
    intro _ _
    omega

/-- Claim C5 witness: an inverted date interval yields an empty result. -/
theorem c5_filter_engine_witness :
    filtered_df (load_data [(⟨"A", "Asia", 0, 1000, 5, 0, 0, 0⟩ : RawRecord)])
      ⟨["Asia"], ["A"], 5, 2⟩ = [] :=
  (c5_filter_engine (load_data [⟨"A", "Asia", 0, 1000, 5, 0, 0, 0⟩])
    ⟨["Asia"], ["A"], 5, 2⟩).2.2.2.2 (by decide)

/-! ## Claim C6: KPI summary -/

/-- Claim C6: the four KPI totals are the exact arithmetic sums of
their raw fields over the filtered set (additive over concatenation,
one value per record, no drops and no double counting); `CFR` and
`RecoveryRate` are the stated percentages, and both are 0 when
`totalConfirmed = 0`, so an empty filtered set yields all-zero KPIs. -/
theorem c6_kpi_summary (d : List Record) (c : FilterCriteria) :
    (∀ g₁ g₂ : List Record,
      total_cases (g₁ ++ g₂) = total_cases g₁ + total_cases g₂ ∧
      total_deaths (g₁ ++ g₂) = total_deaths g₁ + total_deaths g₂ ∧
      total_recovered (g₁ ++ g₂) = total_recovered g₁ + total_recovered g₂ ∧
      active_cases (g₁ ++ g₂) = active_cases g₁ + active_cases g₂) ∧
    (∀ r : Record, total_cases [r] = r.confirmed ∧ total_deaths [r] = r.deaths ∧
      total_recovered [r] = r.recovered ∧ active_cases [r] = r.active) ∧
    (total_cases (filtered_df d c) = 0 →
      cfr (filtered_df d c) = 0 ∧ recovery_rate (filtered_df d c) = 0) ∧
    (total_cases (filtered_df d c) ≠ 0 →
      cfr (filtered_df d c) =
        (total_deaths (filtered_df d c) : ℚ) / (total_cases (filtered_df d c) : ℚ) * 100 ∧
      recovery_rate (filtered_df d c) =
        (total_recovered (filtered_df d c) : ℚ) / (total_cases (filtered_df d c) : ℚ) * 100) ∧
    (filtered_df d c = [] →
      total_cases (filtered_df d c) = 0 ∧ total_deaths (filtered_df d c) = 0 ∧
      total_recovered (filtered_df d c) = 0 ∧ active_cases (filtered_df d c) = 0 ∧
      cfr (filtered_df d c) = 0 ∧ recovery_rate (filtered_df d c) = 0) := by
  refine ⟨?_, ?_, ?_, ?_, ?_⟩
  · intro g₁ g₂
    refine ⟨?_, ?_, ?_, ?_⟩ <;>
      simp [total_cases, total_deaths, total_recovered, active_cases]
  · intro r
    refine ⟨?_, ?_, ?_, ?_⟩ <;>
      simp [total_cases, total_deaths, total_recovered, active_cases]
  · intro h
    simp [cfr, recovery_rate, h]
  · intro h
    simp [cfr, recovery_rate, h]
  · intro h
    rw [h]
    simp [total_cases, total_deaths, total_recovered, active_cases, cfr, recovery_rate]

/-- Claim C6 witness: an empty continent selection empties the filtered
set, and the KPIs all degrade to zero. -/
theorem c6_kpi_summary_witness :
    total_cases (filtered_df (load_data [(⟨"A", "Asia", 0, 1000, 5, 0, 0, 0⟩ : RawRecord)])
      ⟨[], ["A"], 0, 9⟩) = 0 ∧
    cfr (filtered_df (load_data [(⟨"A", "Asia", 0, 1000, 5, 0, 0, 0⟩ : RawRecord)])
      ⟨[], ["A"], 0, 9⟩) = 0 := by
  have h := (c6_kpi_summary (load_data [⟨"A", "Asia", 0, 1000, 5, 0, 0, 0⟩])
    ⟨[], ["A"], 0, 9⟩).2.2.2.2 (by decide)
  exact ⟨h.1, h.2.2.2.2.1⟩

/-! ## Claim C7: the filter is idempotent, deterministic, non-mutating -/

/-- Claim C7: filtering twice with the same criteria equals filtering
once; the result is a subsequence view of the base dataset (which, the
model being pure, is never mutated); and identical inputs give
identical outputs. -/
theorem c7_filter_idempotent (d : List Record) (c : FilterCriteria) :
    filtered_df (filtered_df d c) c = filtered_df d c ∧
    List.Sublist (filtered_df d c) d ∧
    (∀ d' c', d' = d → c' = c → filtered_df d' c' = filtered_df d c) := by
  refine ⟨?_, List.filter_sublist d, ?_⟩
  · simp [filtered_df, List.filter_filter]
  · intro d' c' hd hc
    rw [hd, hc]

/-- Claim C7 witness: idempotence and determinism on a concrete
dataset and criteria. -/
theorem c7_filter_idempotent_witness :
    filtered_df (filtered_df (load_data [(⟨"A", "Asia", 0, 1000, 5, 0, 0, 0⟩ : RawRecord)])
        ⟨["Asia"], ["A"], 0, 9⟩) ⟨["Asia"], ["A"], 0, 9⟩ =
      filtered_df (load_data [(⟨"A", "Asia", 0, 1000, 5, 0, 0, 0⟩ : RawRecord)])
        ⟨["Asia"], ["A"], 0, 9⟩ := by
  have h := c7_filter_idempotent
    (load_data [(⟨"A", "Asia", 0, 1000, 5, 0, 0, 0⟩ : RawRecord)]) ⟨["Asia"], ["A"], 0, 9⟩
  have _h2 := h.2.2 (load_data [(⟨"A", "Asia", 0, 1000, 5, 0, 0, 0⟩ : RawRecord)])
    ⟨["Asia"], ["A"], 0, 9⟩ rfl rfl
  exact h.1

/-! ## Claim C10: per-date sum over an all-null group is 0 -/

/-- Claim C10: if every filtered record on a date has a null `7DayAvg`,
the Trend view reports 0 (not null) as that date's `7DayAvg` sum. -/
theorem c10_allnull_group_sum (f : List Record) (dd : ℕ)
    (h : ∀ r ∈ f, r.date = dd → r.sevenDayAvg.isNan = true) :
    dateAvgSum f dd = PVal.fin 0 ∧
    (dd ∈ datesSorted f → (dd, dateConfirmedSum f dd, PVal.fin 0) ∈ trend f) := by
  have hsum : dateAvgSum f dd = PVal.fin 0 := by
    apply nanSum_all_nan
    intro v hv
    obtain ⟨r, hr, rfl⟩ := List.mem_map.mp hv
    have hr' := List.mem_filter.mp hr
    exact h r hr'.1 (by simpa using hr'.2)
  refine ⟨hsum, fun hdd => ?_⟩
  rw [trend]
  exact List.mem_map.mpr ⟨dd, hdd, by rw [hsum]⟩

/-- Claim C10 witness: a one-record dataset (so its `7DayAvg` is null)
whose trend row for that date carries the sum 0. -/
theorem c10_allnull_group_sum_witness :
    dateAvgSum (load_data [(⟨"A", "Asia", 0, 1000, 5, 0, 0, 0⟩ : RawRecord)]) 0 =
      PVal.fin 0 ∧
    (0, dateConfirmedSum (load_data [(⟨"A", "Asia", 0, 1000, 5, 0, 0, 0⟩ : RawRecord)]) 0,
      PVal.fin 0) ∈ trend (load_data [(⟨"A", "Asia", 0, 1000, 5, 0, 0, 0⟩ : RawRecord)]) := by
  have h := c10_allnull_group_sum
    (load_data [(⟨"A", "Asia", 0, 1000, 5, 0, 0, 0⟩ : RawRecord)]) 0 (by decide)
  exact ⟨h.1, h.2 (by decide)⟩

/-! ## Claim C8: peak view -/

theorem mem_countriesSorted (f : List Record) (k : String) :
    k ∈ countriesSorted f ↔ ∃ r ∈ f, r.country = k := by
  simp [countriesSorted, List.mem_insertionSort, List.mem_dedup, List.mem_map]

theorem countriesSorted_nodup (f : List Record) : (countriesSorted f).Nodup := by
  rw [countriesSorted]
  exact ((List.perm_insertionSort _ _).nodup_iff).2 (List.nodup_dedup _)

theorem peakFold_spec (l : List Record) (b : Record)
    (hs : List.Sorted (fun a c : Record => a.date ≤ c.date) (b :: l)) :
    (l.foldl peakStep b) ∈ b :: l ∧
    (∀ y ∈ b :: l, y.confirmed ≤ (l.foldl peakStep b).confirmed) ∧
    (∀ y ∈ b :: l, y.confirmed = (l.foldl peakStep b).confirmed →
      (l.foldl peakStep b).date ≤ y.date) := by
  induction l generalizing b with
  | nil =>
    refine ⟨List.mem_singleton.mpr rfl, ?_, ?_⟩
    · intro y hy
      rw [List.mem_singleton.mp hy]
      simp
    · intro y hy _
      rw [List.mem_singleton.mp hy]
      simp
  | cons x l ih =>
    obtain ⟨hb, hs'⟩ := List.sorted_cons.mp hs
    obtain ⟨hx, hsl⟩ := List.sorted_cons.mp hs'
    have hstep : List.Sorted (fun a c : Record => a.date ≤ c.date) (peakStep b x :: l) := by
      rw [List.sorted_cons]
      refine ⟨?_, hsl⟩
      intro y hy
      rw [peakStep]
      split
      · exact hx y hy
      · exact hb y (List.mem_cons_of_mem _ hy)
    obtain ⟨hmem, hmax, htie⟩ := ih (peakStep b x) hstep
    by_cases hc : b.confirmed < x.confirmed
    · have hbx : peakStep b x = x := by simp [peakStep, hc]
      rw [hbx] at hmem hmax htie
      rw [List.foldl_cons, hbx]
      refine ⟨List.mem_cons_of_mem b hmem, ?_, ?_⟩
      · intro y hy
        rcases List.mem_cons.mp hy with h1 | hy'
        · rw [h1]
          exact le_trans (le_of_lt hc) (hmax x (List.mem_cons_self x l))
        · exact hmax y hy'
      · intro y hy hyc
        rcases List.mem_cons.mp hy with h1 | hy'
        · exfalso
          have hxm := hmax x (List.mem_cons_self x l)
          rw [h1] at hyc
          omega
        · exact htie y hy' hyc
    · have hbx : peakStep b x = b := by simp [peakStep, hc]
      rw [hbx] at hmem hmax htie
      rw [List.foldl_cons, hbx]
      refine ⟨?_, ?_, ?_⟩
      · rcases List.mem_cons.mp hmem with h1 | h1
        · rw [h1]
          exact List.mem_cons_self _ _
        · exact List.mem_cons_of_mem _ (List.mem_cons_of_mem _ h1)
      · intro y hy
        rcases List.mem_cons.mp hy with h1 | hy'
        · rw [h1]
          exact hmax b (List.mem_cons_self _ _)
        · rcases List.mem_cons.mp hy' with h2 | hy''
          · rw [h2]
            exact le_trans (not_lt.mp hc) (hmax b (List.mem_cons_self _ _))
          · exact hmax y (List.mem_cons_of_mem _ hy'')
      · intro y hy hyc
        rcases List.mem_cons.mp hy with h1 | hy'
        · rw [h1] at hyc
          rw [h1]
          exact htie b (List.mem_cons_self _ _) hyc
        · rcases List.mem_cons.mp hy' with h2 | hy''
          · rw [h2] at hyc
            have h2' : x.confirmed ≤ b.confirmed := not_lt.mp hc
            have h1' : b.confirmed ≤ (l.foldl peakStep b).confirmed :=
              hmax b (List.mem_cons_self _ _)
            have h3 : b.confirmed = (l.foldl peakStep b).confirmed := by omega
            rw [h2]
            exact le_trans (htie b (List.mem_cons_self _ _) h3)
              (hb x (List.mem_cons_self _ _))
          · exact htie y (List.mem_cons_of_mem _ hy'') hyc

theorem firstMax_spec (l : List Record)
    (hs : List.Sorted (fun a c : Record => a.date ≤ c.date) l) (hne : l ≠ []) :
    ∃ m, firstMax l = some m ∧ m ∈ l ∧ (∀ y ∈ l, y.confirmed ≤ m.confirmed) ∧
      (∀ y ∈ l, y.confirmed = m.confirmed → m.date ≤ y.date) := by
  cases l with
  | nil => exact absurd rfl hne
  | cons r rest =>
    obtain ⟨h1, h2, h3⟩ := peakFold_spec rest r hs
    exact ⟨rest.foldl peakStep r, rfl, h1, h2, h3⟩

theorem peak_entry_exists (f : List Record)
    (hs : List.Sorted (fun a c : Record => a.date ≤ c.date) f) (k : String)
    (hk : ∃ r ∈ f, r.country = k) :
    ∃ m, firstMax (f.filter (fun r => r.country = k)) = some m ∧
      m ∈ f ∧ m.country = k ∧
      (∀ y ∈ f, y.country = k → y.confirmed ≤ m.confirmed) ∧
      (∀ y ∈ f, y.country = k → y.confirmed = m.confirmed → m.date ≤ y.date) := by
  have hsf : List.Sorted (fun a c : Record => a.date ≤ c.date)
      (f.filter (fun r => r.country = k)) := hs.filter _
  have hne : f.filter (fun r => decide (r.country = k)) ≠ [] := by
    obtain ⟨r, hr, hrk⟩ := hk
    exact List.ne_nil_of_mem (List.mem_filter.mpr ⟨hr, by simp [hrk]⟩)
  obtain ⟨m, hm, hmem, hmax, htie⟩ := firstMax_spec _ hsf hne
  have hmf := List.mem_filter.mp hmem
  refine ⟨m, hm, hmf.1, by simpa using hmf.2, ?_, ?_⟩
  · intro y hy hyk
    exact hmax y (List.mem_filter.mpr ⟨hy, by simp [hyk]⟩)
  · intro y hy hyk hyc
    exact htie y (List.mem_filter.mpr ⟨hy, by simp [hyk]⟩) hyc

theorem peak_keys (f : List Record)
    (hs : List.Sorted (fun a c : Record => a.date ≤ c.date) f) :
    (peak f).map (fun e => e.1) = countriesSorted f := by
  rw [peak]
  have main : ∀ ks : List String, (∀ k ∈ ks, ∃ r ∈ f, r.country = k) →
      (ks.filterMap (fun k =>
        (firstMax (f.filter (fun r => r.country = k))).map
          (fun r => (r.country, r.date, r.confirmed)))).map (fun e => e.1) = ks := by
    intro ks
    induction ks with
    | nil => simp
    | cons k ks ih =>
      intro hk
      obtain ⟨m, hm, _, hmk, _, _⟩ :=
        peak_entry_exists f hs k (hk k (List.mem_cons_self _ _))
      simp only [List.filterMap_cons, hm, Option.map_some']
      rw [List.map_cons, ih (fun a ha => hk a (List.mem_cons_of_mem _ ha))]
      rw [hmk]
  apply main
  intro k hk
  exact (mem_countriesSorted f k).mp hk

/-- Claim C8: for every country of the filtered set the Peak view has
exactly one row — key list equal to the sorted country keys, which are
duplicate-free — and that row is `(Country, Date, Confirmed)` of a
record of the country attaining the maximum `Confirmed`, tie-broken to
the earliest `Date`. -/
theorem c8_peak_view (rs : List RawRecord) (crit : FilterCriteria) (k : String)
    (hk : k ∈ countriesSorted (filtered_df (load_data rs) crit)) :
    ∃ m : Record, m ∈ filtered_df (load_data rs) crit ∧ m.country = k ∧
      (k, m.date, m.confirmed) ∈ peak (filtered_df (load_data rs) crit) ∧
      (peak (filtered_df (load_data rs) crit)).map (fun e => e.1) =
        countriesSorted (filtered_df (load_data rs) crit) ∧
      (countriesSorted (filtered_df (load_data rs) crit)).Nodup ∧
      (∀ r ∈ filtered_df (load_data rs) crit, r.country = k →
        r.confirmed ≤ m.confirmed) ∧
      (∀ r ∈ filtered_df (load_data rs) crit, r.country = k →
        r.confirmed = m.confirmed → m.date ≤ r.date) := by
  have hs := filtered_df_sorted rs crit
  obtain ⟨m, hm, hmem, hmk, hmax, htie⟩ :=
    peak_entry_exists _ hs k ((mem_countriesSorted _ _).mp hk)
  refine ⟨m, hmem, hmk, ?_, peak_keys _ hs, countriesSorted_nodup _, hmax, htie⟩
  rw [peak]
  apply List.mem_filterMap.mpr
  refine ⟨k, hk, ?_⟩
  rw [hm, Option.map_some', hmk]

/-- Claim C8 witness: the Peak view of a one-country filtered set keys
exactly its country list. -/
theorem c8_peak_view_witness :
    (peak (filtered_df (load_data
      [(⟨"A", "Asia", 0, 1000, 100, 0, 0, 0⟩ : RawRecord),
       ⟨"A", "Asia", 1, 1000, 300, 0, 0, 0⟩,
       ⟨"A", "Asia", 2, 1000, 300, 0, 0, 0⟩]) ⟨["Asia"], ["A"], 0, 9⟩)).map
        (fun e => e.1) =
      countriesSorted (filtered_df (load_data
        [(⟨"A", "Asia", 0, 1000, 100, 0, 0, 0⟩ : RawRecord),
         ⟨"A", "Asia", 1, 1000, 300, 0, 0, 0⟩,
         ⟨"A", "Asia", 2, 1000, 300, 0, 0, 0⟩]) ⟨["Asia"], ["A"], 0, 9⟩) := by
  obtain ⟨m, _, _, _, hkeys, _, _, _⟩ := c8_peak_view
    [(⟨"A", "Asia", 0, 1000, 100, 0, 0, 0⟩ : RawRecord),
     ⟨"A", "Asia", 1, 1000, 300, 0, 0, 0⟩,
     ⟨"A", "Asia", 2, 1000, 300, 0, 0, 0⟩] ⟨["Asia"], ["A"], 0, 9⟩ "A" (by decide)
  exact hkeys

/-! ## Claim C9: CSV export round-trip -/

theorem filtered_raw_sorted (rs : List RawRecord) (c : FilterCriteria) :
    List.Sorted dateLe ((filtered_df (load_data rs) c).map (fun r => r.toRawRecord)) := by
  have hf := filtered_df_sorted rs c
  rw [List.Sorted, List.pairwise_map]
  exact hf

theorem exportReload_eq_deriveAux (f : List Record)
    (h : List.Sorted dateLe (f.map (fun r => r.toRawRecord))) :
    exportReload f = deriveAux [] (f.map (fun r => r.toRawRecord)) := by
  rw [exportReload, load_data, h.insertionSort_eq]

theorem forall2_rowLocalAgree (l₁ l₂ : List Record)
    (hraw : l₁.map (fun r => r.toRawRecord) = l₂.map (fun r => r.toRawRecord))
    (hc₁ : ∀ r ∈ l₁, rowLocalCoherent r) (hc₂ : ∀ r ∈ l₂, rowLocalCoherent r) :
    List.Forall₂ rowLocalAgree l₁ l₂ := by
  induction l₁ generalizing l₂ with
  | nil =>
    cases l₂ with
    | nil => exact List.Forall₂.nil
    | cons b l => simp at hraw
  | cons a l ih =>
    cases l₂ with
    | nil => simp at hraw
    | cons b l₂' =>
      simp only [List.map_cons, List.cons.injEq] at hraw
      obtain ⟨hab, hrest⟩ := hraw
      obtain ⟨a1, a2, a3, a4, a5⟩ := hc₁ a (List.mem_cons_self _ _)
      obtain ⟨b1, b2, b3, b4, b5⟩ := hc₂ b (List.mem_cons_self _ _)
      refine List.Forall₂.cons ⟨hab, ?_, ?_, ?_, ?_, ?_⟩
        (ih l₂' hrest (fun r hr => hc₁ r (List.mem_cons_of_mem _ hr))
          (fun r hr => hc₂ r (List.mem_cons_of_mem _ hr)))
      · rw [a1, b1, hab]
      · rw [a2, b2, hab]
      · rw [a3, b3, hab]
      · rw [a4, b4, hab]
      · rw [a5, b5, hab]

/-- Claim C9 counterexample: exporting a filtered set that cut off the
first day of a country and re-deriving gives a different `DailyGrowth`
(null instead of 100%), so recomputed derived fields are not always
identical to the originals. -/
theorem c9_roundtrip_cex :
    (exportReload (filtered_df (load_data
        [(⟨"A", "Asia", 0, 1000, 100, 0, 0, 0⟩ : RawRecord),
         ⟨"A", "Asia", 1, 1000, 200, 0, 0, 0⟩]) ⟨["Asia"], ["A"], 1, 5⟩)).map
      (fun r => r.dailyGrowth) ≠
    (filtered_df (load_data
        [(⟨"A", "Asia", 0, 1000, 100, 0, 0, 0⟩ : RawRecord),
         ⟨"A", "Asia", 1, 1000, 200, 0, 0, 0⟩]) ⟨["Asia"], ["A"], 1, 5⟩).map
      (fun r => r.dailyGrowth) := by
  decide

/-- Claim C9 (amended): reloading the exported filtered set reproduces
every raw field exactly, and re-derivation reproduces all row-local
derived fields (CFR, RecoveryRate, CasesPerMillion, DeathsPerMillion,
ActiveRatio) exactly; the country-history-scoped fields `DailyGrowth`
and `7DayAvg` are only guaranteed to match when the exported set is the
full dataset — a filter that drops part of a country's history may
change them. -/
theorem c9_roundtrip (rs : List RawRecord) (c : FilterCriteria) :
    ((exportReload (filtered_df (load_data rs) c)).map (fun r => r.toRawRecord) =
      (filtered_df (load_data rs) c).map (fun r => r.toRawRecord)) ∧
    List.Forall₂ rowLocalAgree (exportReload (filtered_df (load_data rs) c))
      (filtered_df (load_data rs) c) ∧
    exportReload (load_data rs) = load_data rs := by
  have hsr := filtered_raw_sorted rs c
  have he := exportReload_eq_deriveAux _ hsr
  have hraw : (exportReload (filtered_df (load_data rs) c)).map (fun r => r.toRawRecord) =
      (filtered_df (load_data rs) c).map (fun r => r.toRawRecord) := by
    rw [he, deriveAux_map_raw]
  refine ⟨hraw, ?_, ?_⟩
  · apply forall2_rowLocalAgree _ _ hraw
    · intro r hr
      rw [he] at hr
      exact coherent_of_mem_deriveAux _ _ _ hr
    · intro r hr
      exact coherent_of_mem_load_data rs r (List.mem_of_mem_filter hr)
  · have hld : (load_data rs).map (fun r => r.toRawRecord) =
        List.insertionSort dateLe rs := deriveAux_map_raw _ _
    have hsorted : List.Sorted dateLe ((load_data rs).map (fun r => r.toRawRecord)) := by
      rw [hld]
      exact List.sorted_insertionSort dateLe rs
    rw [exportReload_eq_deriveAux _ hsorted, hld, load_data]
